import Mathlib

/-!
Verification of the yts repository's retry-with-backoff HTTP wrapper
(`fetchWithRetry`) and its paginated, time-windowed video collector
(`getRecentVideos`) plus the single-item lookup variant
(`findPlaylistItemId`), shallowly embedded from the JavaScript source.

Modelling conventions:
* An HTTP response is reduced to the fields the embedded code reads:
  its status and its `Retry-After` header.
* JavaScript `Number(ra)` on a `Retry-After` header value either yields a
  number or `NaN`; valid numeric `Retry-After` values are HTTP
  delay-seconds (non-negative integers), modelled as `Nat`, and `NaN` is
  modelled as `Option.none`.  `setTimeout` coerces a `NaN` delay to 0 ms.
* The environment (the sequence of responses the network would deliver,
  or the sequence of pages the feed would deliver along the cursor
  chain) is an explicit argument; a thrown JS exception is `Except.error`.
-/

namespace Yts

/-- The parse of a `Retry-After` header as the code sees it:
absent (or empty, which is falsy in `ra ? … : …`), a numeric value `n`
(`Number(ra) = n`), or a non-numeric string (`Number(ra) = NaN`). -/
inductive RetryAfterHeader
  | absent
  | numeric (n : Nat)
  | nonNumeric
deriving DecidableEq, Repr

/-- An HTTP response, reduced to the fields `fetchWithRetry` reads. -/
structure Response where
  status : Nat
  retryAfter : RetryAfterHeader
deriving DecidableEq, Repr

/-- `retryable = new Set([408, 429, 503]); retryable.has(status)`. -/
def retryable (s : Nat) : Bool :=
  s = 408 || s = 429 || s = 503

/-- `delaySec = ra ? Number(ra) : Math.pow(2, i)`; `none` is `NaN`. -/
def delaySecOf (i : Nat) : RetryAfterHeader → Option Nat
  | .absent => some (2 ^ i)
  | .numeric n => some n
  | .nonNumeric => none

/-- JS `Math.min(5, x)` where `x` may be `NaN` (`none`): `NaN` propagates. -/
def mathMin5 : Option Nat → Option Nat
  | some x => some (min 5 x)
  | none => none

/-- `delayMs = Math.min(5, delaySec) * 1000`; `none` is `NaN`. -/
def delayMsOf (i : Nat) (h : RetryAfterHeader) : Option Nat :=
  (mathMin5 (delaySecOf i h)).map (· * 1000)

/-- The delay actually waited: `setTimeout` coerces a `NaN` timeout to 0. -/
def waitedMsOf (i : Nat) (h : RetryAfterHeader) : Nat :=
  (delayMsOf i h).getD 0

/-- The message of the error thrown on exhaustion:
`(context ? context + ': ' : '') + 'Max retries exceeded'`. -/
def errMsg (context : String) : String :=
  (if context = "" then "" else context ++ ": ") ++ "Max retries exceeded"

instance instDecEqExcept {ε α : Type} [DecidableEq ε] [DecidableEq α] :
    DecidableEq (Except ε α) := fun a b =>
  match a, b with
  | .error e, .error f =>
    if h : e = f then .isTrue (by rw [h]) else .isFalse (by simp [h])
  | .ok x, .ok y =>
    if h : x = y then .isTrue (by rw [h]) else .isFalse (by simp [h])
  | .error _, .ok _ => .isFalse (by simp)
  | .ok _, .error _ => .isFalse (by simp)

/-- The observable outcome of one `fetchWithRetry` call: the returned
response or the thrown error, the number of `fetch` attempts made, and
the list of delays (in ms) waited between/after retryable attempts. -/
structure FetchTrace where
  result : Except String Response
  attempts : Nat
  delays : List Nat
deriving DecidableEq, Repr

/-- The `for (let i = 0; i < maxRetries; i++)` loop of `fetchWithRetry`:
`fuel` is the number of remaining iterations, `i` the current attempt
index, `ds` the delays waited so far.  Each iteration fetches
`responses i`; a non-retryable status returns at once, a retryable one
waits the computed delay (also on the final iteration) and continues;
when the loop ends, `Max retries exceeded` is thrown. -/
def fetchWithRetryGo (responses : Nat → Response) (context : String) :
    Nat → Nat → List Nat → FetchTrace
  | 0, i, ds => ⟨.error (errMsg context), i, ds⟩
  | fuel + 1, i, ds =>
    let res := responses i
    if retryable res.status then
      fetchWithRetryGo responses context fuel (i + 1)
        (ds ++ [waitedMsOf i res.retryAfter])
    else ⟨.ok res, i + 1, ds⟩

/-- `fetchWithRetry(url, options, maxRetries, context)`, embedded over the
sequence `responses` of responses the successive `fetch(url, options)`
calls would deliver. -/
def fetchWithRetry (responses : Nat → Response) (maxRetries : Nat)
    (context : String) : FetchTrace :=
  fetchWithRetryGo responses context maxRetries 0 []

/-- A playlist feed item, reduced to the four fields `getRecentVideos`
reads and copies into its result records (`contentDetails.videoId`,
`snippet.title`, `snippet.channelTitle`, `snippet.publishedAt`); the
timestamp is an integer instant, compared as `Date` objects compare. -/
structure FeedItem where
  videoId : String
  title : String
  channel : String
  publishedAt : Int
deriving DecidableEq, Repr

/-- One parsed page of the `playlistItems` response: `data.items` (or `[]`)
and `data.nextPageToken`. -/
structure Page where
  items : List FeedItem
  nextPageToken : Option String
deriving DecidableEq, Repr

/-- The outcome of one page fetch inside `getRecentVideos`: the
`fetchWithRetry` call may throw (`fetchError`), `safeParseJson` may throw
on a malformed body (`badJson`), a non-ok HTTP status throws the API's
error message (`httpError`), or a page is delivered (`success`). -/
inductive PageFetch
  | fetchError (e : String)
  | badJson (e : String)
  | httpError (e : String)
  | success (page : Page)
deriving DecidableEq, Repr

/-- How `getRecentVideos` turns one page fetch into a page or a thrown
error (lines 130-139 of the Vercel source: propagate the throw from
`fetchWithRetry`/`safeParseJson`, throw on `!response.ok`). -/
def resolvePage : PageFetch → Except String Page
  | .fetchError e => .error e
  | .badJson e => .error e
  | .httpError e => .error e
  | .success p => .ok p

/-- The filter applied to a page's items: keep `publishedAt >= cutoffDate`. -/
def cutoffFilter (cutoff : Int) (items : List FeedItem) : List FeedItem :=
  items.filter (fun it => cutoff ≤ it.publishedAt)

/-- The early-termination test: `data.items.length` is non-zero and the
last item's `publishedAt` is strictly older than the cutoff. -/
def lastOlder (cutoff : Int) (items : List FeedItem) : Bool :=
  match items.getLast? with
  | some it => it.publishedAt < cutoff
  | none => false

/-- The `do … while (nextPageToken && videos.length < 50)` loop of
`getRecentVideos`, embedded over the list `pages` of page-fetch outcomes
the feed would deliver along the cursor chain, one entry per request.
`videos` is the accumulator, `req` the number of page requests issued so
far; the returned `Nat` is the total number of page requests.  Each
iteration appends the page's qualifying items in order, then breaks if
the page's last item is older than the cutoff, then re-enters only if a
next-page token exists and fewer than 50 items are collected.  The `[]`
case is reached only if the loop would request a page beyond those the
feed can deliver (an ill-formed chain); it returns what was collected. -/
def grvGo (cutoff : Int) :
    List PageFetch → List FeedItem → Nat → Except String (List FeedItem) × Nat
  | [], videos, req => (.ok videos, req)
  | pf :: rest, videos, req =>
    match resolvePage pf with
    | .error e => (.error e, req + 1)
    | .ok page =>
      let videos' := videos ++ cutoffFilter cutoff page.items
      if lastOlder cutoff page.items then (.ok videos', req + 1)
      else if page.nextPageToken.isSome ∧ videos'.length < 50 then
        grvGo cutoff rest videos' (req + 1)
      else (.ok videos', req + 1)

/-- `getRecentVideos(playlistId, apiKey, hoursBack)` embedded over an
absolute cutoff instant and the page-fetch outcomes of the feed, also
reporting how many page requests were issued. -/
def getRecentVideosRun (cutoff : Int) (pages : List PageFetch) :
    Except String (List FeedItem) × Nat :=
  grvGo cutoff pages [] 0

/-- The collected videos (or thrown error) of a `getRecentVideos` run. -/
def getRecentVideos (cutoff : Int) (pages : List PageFetch) :
    Except String (List FeedItem) :=
  (getRecentVideosRun cutoff pages).1

/-- `grvConsume cutoff pre videos = some acc` says the collector, started
on `pre` with accumulator `videos`, processes every page of `pre` and
would issue another request, reaching accumulator `acc`. -/
def grvConsume (cutoff : Int) :
    List PageFetch → List FeedItem → Option (List FeedItem)
  | [], videos => some videos
  | pf :: rest, videos =>
    match resolvePage pf with
    | .error _ => none
    | .ok page =>
      let videos' := videos ++ cutoffFilter cutoff page.items
      if lastOlder cutoff page.items then none
      else if page.nextPageToken.isSome ∧ videos'.length < 50 then
        grvConsume cutoff rest videos'
      else none

/-- A playlist item as `findPlaylistItemId` reads it: its `id` and the
optional chain `item?.snippet?.resourceId?.videoId`. -/
structure PlaylistItem where
  id : String
  resourceVideoId : Option String
deriving DecidableEq, Repr

/-- One parsed page of the lookup walk: `data.items || []` and
`data.nextPageToken`. -/
structure LookupPage where
  items : List PlaylistItem
  nextPageToken : Option String
deriving DecidableEq, Repr

/-- The match test of the lookup:
`item?.snippet?.resourceId?.videoId === videoId`. -/
def itemMatches (videoId : String) (it : PlaylistItem) : Bool :=
  it.resourceVideoId = some videoId

/-- The `while (true)` loop of `findPlaylistItemId`, embedded over the
list of page-fetch outcomes along the cursor chain (`Except.error` for a
non-ok response, whose error is thrown).  A matching item returns its
`id` at once; otherwise the walk continues while a `nextPageToken`
exists and returns `none` (JS `null`) when the chain ends.  The `Nat`
counts page requests.  The `[]` case is reached only on an ill-formed
chain (token pointing past the pages the feed can deliver). -/
def findGo (videoId : String) :
    List (Except String LookupPage) → Nat → Except String (Option String) × Nat
  | [], req => (.ok none, req)
  | p :: rest, req =>
    match p with
    | .error e => (.error e, req + 1)
    | .ok page =>
      match page.items.find? (itemMatches videoId) with
      | some it => (.ok (some it.id), req + 1)
      | none =>
        if page.nextPageToken.isSome then findGo videoId rest (req + 1)
        else (.ok none, req + 1)

/-- `findPlaylistItemId({playlistId, videoId, accessToken})` embedded over
the cursor chain's pages, also reporting the number of page requests. -/
def findPlaylistItemIdRun (videoId : String)
    (pages : List (Except String LookupPage)) :
    Except String (Option String) × Nat :=
  findGo videoId pages 0

/-- The lookup's result: `some id` of the matching playlist item, `none`
for JS `null` (surfaced by the handler as a 404, not a thrown error). -/
def findPlaylistItemId (videoId : String)
    (pages : List (Except String LookupPage)) : Except String (Option String) :=
  (findPlaylistItemIdRun videoId pages).1

/-- `findConsume videoId pre = true` says the lookup walk processes every
page of `pre` without a match or an error and would issue another
request. -/
def findConsume (videoId : String) : List (Except String LookupPage) → Bool
  | [] => true
  | p :: rest =>
    match p with
    | .error _ => false
    | .ok page =>
      match page.items.find? (itemMatches videoId) with
      | some _ => false
      | none => page.nextPageToken.isSome && findConsume videoId rest

/-- A well-formed cursor chain: every page but the last carries a
next-page token and the last does not. -/
def chainOk : List LookupPage → Bool
  | [] => true
  | [p] => p.nextPageToken.isNone
  | p :: q :: rest => p.nextPageToken.isSome && chainOk (q :: rest)

/-- The delays recorded by `fetchWithRetryGo` extend the accumulator. -/
theorem fetchWithRetryGo_delays_prefix (responses : Nat → Response)
    (context : String) :
    ∀ fuel i ds, ∃ t, (fetchWithRetryGo responses context fuel i ds).delays
      = ds ++ t := by
  intro fuel
  induction fuel with
  | zero => intro i ds; exact ⟨[], by simp [fetchWithRetryGo]⟩
  | succ n ih =>
    intro i ds
    by_cases h : retryable (responses i).status
    · obtain ⟨t, ht⟩ := ih (i + 1) (ds ++ [waitedMsOf i (responses i).retryAfter])
      exact ⟨waitedMsOf i (responses i).retryAfter :: t, by
        simp [fetchWithRetryGo, h] at ht ⊢
        simpa using ht⟩
    · exact ⟨[], by simp [fetchWithRetryGo, h]⟩

/-- Running the loop across `j` consecutive retryable attempts advances the
attempt index by `j` and records one computed delay per attempt. -/
theorem fetchWithRetryGo_skip (responses : Nat → Response) (context : String)
    (j : Nat) :
    ∀ fuel i ds, j ≤ fuel →
      (∀ k, k < j → retryable (responses (i + k)).status = true) →
      fetchWithRetryGo responses context fuel i ds
        = fetchWithRetryGo responses context (fuel - j) (i + j)
            (ds ++ (List.range j).map
              (fun k => waitedMsOf (i + k) (responses (i + k)).retryAfter)) := by
  induction j with
  | zero => intro fuel i ds _ _; simp
  | succ m ih =>
    intro fuel i ds hle hret
    obtain ⟨fuel, rfl⟩ : ∃ f, fuel = f + 1 :=
      ⟨fuel - 1, by omega⟩
    have h0 : retryable (responses i).status = true := by
      simpa using hret 0 (by omega)
    rw [fetchWithRetryGo, if_pos h0]
    have := ih fuel (i + 1) (ds ++ [waitedMsOf i (responses i).retryAfter])
      (by omega)
      (fun k hk => by
        have := hret (k + 1) (by omega)
        simpa [Nat.add_assoc, Nat.add_comm 1 k] using this)
    rw [this]
    congr 1
    · omega
    · omega
    · rw [List.range_succ_eq_map]
      simp [List.map_map, Function.comp, Nat.add_assoc, Nat.add_comm 1]

/-- The loop of `fetchWithRetry` makes at most `i + fuel` attempts. -/
theorem fetchWithRetryGo_attempts_le (responses : Nat → Response)
    (context : String) :
    ∀ fuel i ds, (fetchWithRetryGo responses context fuel i ds).attempts
      ≤ i + fuel := by
  intro fuel
  induction fuel with
  | zero => intro i ds; simp [fetchWithRetryGo]
  | succ n ih =>
    intro i ds
    by_cases h : retryable (responses i).status
    · simpa [fetchWithRetryGo, h] using
        le_trans (ih (i + 1) (ds ++ [waitedMsOf i (responses i).retryAfter]))
          (by omega)
    · simp [fetchWithRetryGo, h]

/-- C3: for every response whose HTTP status is not in `{408, 429, 503}`,
`fetchWithRetry` returns that response on the attempt that produced it
(attempt `j`, so `j + 1` attempts in total), with no further retry and
with no delay waited for that attempt — the recorded delays are exactly
the backoff delays of the `j` earlier retryable attempts. -/
theorem fetchWithRetry_nonretryable_returns_immediately
    (responses : Nat → Response) (maxRetries : Nat) (context : String)
    (j : Nat) (hj : j < maxRetries)
    (hpre : ∀ k, k < j → retryable (responses k).status = true)
    (hnr : retryable (responses j).status = false) :
    fetchWithRetry responses maxRetries context
      = ⟨.ok (responses j), j + 1,
         (List.range j).map (fun i => waitedMsOf i (responses i).retryAfter)⟩ := by
  unfold fetchWithRetry
  rw [fetchWithRetryGo_skip responses context j maxRetries 0 [] (by omega)
    (fun k hk => by simpa using hpre k hk)]
  obtain ⟨f, hf⟩ : ∃ f, maxRetries - j = f + 1 := ⟨maxRetries - j - 1, by omega⟩
  rw [hf, fetchWithRetryGo]
  simp [hnr]

/-- Closed instance of C3: a 429 then a 200; the 200 is returned on
attempt 2 after a single 1-second backoff for the 429. -/
theorem fetchWithRetry_nonretryable_returns_immediately_witness :
    fetchWithRetry
        (fun k => if k = 0 then ⟨429, .absent⟩ else ⟨200, .absent⟩) 3 "T"
      = ⟨.ok ⟨200, .absent⟩, 2, [1000]⟩ := by
  have h := fetchWithRetry_nonretryable_returns_immediately
    (fun k => if k = 0 then ⟨429, .absent⟩ else ⟨200, .absent⟩) 3 "T" 1
    (by omega)
    (fun k hk => by
      have hk0 : k = 0 := by omega
      rw [hk0]; rfl)
    (by rfl)
  rw [h]; rfl

/-- C4: while attempts stay retryable, the delay waited for attempt `i`
is `min(Retry-After, 5)` seconds when the header is numeric and
`min(2^i, 5)` seconds when it is absent; the run's recorded delays
agree with this computation attempt by attempt. -/
theorem fetchWithRetry_backoff_delays (responses : Nat → Response)
    (maxRetries : Nat) (context : String) (j : Nat) (hj : j ≤ maxRetries)
    (hpre : ∀ k, k < j → retryable (responses k).status = true) :
    (fetchWithRetry responses maxRetries context).delays.take j
        = (List.range j).map (fun i => waitedMsOf i (responses i).retryAfter)
      ∧ (∀ i n, waitedMsOf i (RetryAfterHeader.numeric n) = min n 5 * 1000)
      ∧ (∀ i, waitedMsOf i RetryAfterHeader.absent = min (2 ^ i) 5 * 1000) := by
  refine ⟨?_, ?_, ?_⟩
  · unfold fetchWithRetry
    rw [fetchWithRetryGo_skip responses context j maxRetries 0 [] hj
      (fun k hk => by simpa using hpre k hk)]
    obtain ⟨t, ht⟩ := fetchWithRetryGo_delays_prefix responses context
      (maxRetries - j) (0 + j)
      ([] ++ (List.range j).map
        (fun k => waitedMsOf (0 + k) (responses (0 + k)).retryAfter))
    rw [ht]
    simp [List.take_append_of_le_length, List.take_of_length_le]
  · intro i n
    simp [waitedMsOf, delayMsOf, mathMin5, delaySecOf, Nat.min_comm]
  · intro i
    simp [waitedMsOf, delayMsOf, mathMin5, delaySecOf, Nat.min_comm]

/-- Closed instance of C4: a `Retry-After: 10` yields a 5000 ms wait and
an absent header on attempt 1 yields a 2000 ms wait. -/
theorem fetchWithRetry_backoff_delays_witness :
    (fetchWithRetry
        (fun k => if k = 0 then ⟨429, .numeric 10⟩
          else if k = 1 then ⟨503, .absent⟩
          else ⟨200, .absent⟩) 3 "T").delays.take 2
      = [5000, 2000] := by
  have h := (fetchWithRetry_backoff_delays
    (fun k => if k = 0 then ⟨429, .numeric 10⟩
      else if k = 1 then ⟨503, .absent⟩
      else ⟨200, .absent⟩) 3 "T" 2 (by omega)
    (fun k hk => by
      have : k = 0 ∨ k = 1 := by omega
      rcases this with h0 | h1
      · rw [h0]; rfl
      · rw [h1]; rfl)).1
  rw [h]; rfl

/-- C5: when all `maxRetries` attempts return a retryable status, the call
throws `Max retries exceeded` (prefixed with the diagnostic label when
one is given) and never returns the last retryable response: the result
is the error, after exactly `maxRetries` attempts. -/
theorem fetchWithRetry_exhaustion (responses : Nat → Response)
    (maxRetries : Nat) (context : String)
    (h : ∀ k, k < maxRetries → retryable (responses k).status = true) :
    fetchWithRetry responses maxRetries context
        = ⟨.error (errMsg context), maxRetries,
           (List.range maxRetries).map
             (fun i => waitedMsOf i (responses i).retryAfter)⟩
      ∧ (context ≠ "" → errMsg context = context ++ ": Max retries exceeded") := by
  constructor
  · unfold fetchWithRetry
    rw [fetchWithRetryGo_skip responses context maxRetries maxRetries 0 []
      le_rfl (fun k hk => by simpa using h k hk)]
    simp [fetchWithRetryGo]
  · intro hc
    rw [errMsg, if_neg hc, String.append_assoc]
    rfl

/-- Closed instance of C5: two 503s under `maxRetries = 2` exhaust with
the labelled error and the two computed delays. -/
theorem fetchWithRetry_exhaustion_witness :
    fetchWithRetry (fun _ => ⟨503, .numeric 2⟩) 2 "OAuth/token"
      = ⟨.error "OAuth/token: Max retries exceeded", 2, [2000, 2000]⟩ := by
  have h := (fetchWithRetry_exhaustion (fun _ => ⟨503, .numeric 2⟩) 2
    "OAuth/token" (fun k _ => rfl)).1
  rw [h]; rfl

/-- C8 (divergence witness): a retryable response whose `Retry-After`
header is non-numeric makes `Number(ra)` evaluate to `NaN`, so
`Math.min(5, NaN)` is `NaN` and `setTimeout` fires with zero delay —
every recorded delay is 0 ms, not the claimed `min(2^i, 5)` seconds —
while an absent header does fall back to exponential backoff. -/
theorem fetchWithRetry_nonNumeric_retryAfter_zero_delay :
    (fetchWithRetry (fun _ => ⟨429, .nonNumeric⟩) 3 "T").delays = [0, 0, 0]
      ∧ (fetchWithRetry (fun _ => ⟨429, .absent⟩) 3 "T").delays
          = [1000, 2000, 4000]
      ∧ waitedMsOf 0 RetryAfterHeader.nonNumeric ≠ min (2 ^ 0) 5 * 1000 := by
  refine ⟨rfl, rfl, by decide⟩

/-- C9 (counterexample): with `maxRetries = 1` and a retryable first
response, a delay IS waited — the recorded delays are `[1000]`, not
empty — before the exhaustion error is thrown. -/
theorem fetchWithRetry_maxRetries_one_counterexample :
    (fetchWithRetry (fun _ => ⟨429, .absent⟩) 1 "X").attempts = 1
      ∧ (fetchWithRetry (fun _ => ⟨429, .absent⟩) 1 "X").delays = [1000]
      ∧ (fetchWithRetry (fun _ => ⟨429, .absent⟩) 1 "X").delays ≠ [] := by
  refine ⟨rfl, rfl, by decide⟩

/-- C9 (amended): the loop runs at most `maxRetries` times; with
`maxRetries = 1` exactly one attempt occurs and a retryable status
exhausts immediately after it, but the backoff delay computed for that
final attempt is still waited before the error is thrown. -/
theorem fetchWithRetry_maxRetries_one (responses : Nat → Response)
    (context : String) (h : retryable (responses 0).status = true) :
    fetchWithRetry responses 1 context
        = ⟨.error (errMsg context), 1,
           [waitedMsOf 0 (responses 0).retryAfter]⟩
      ∧ (∀ (rs : Nat → Response) (m : Nat) (c : String),
          (fetchWithRetry rs m c).attempts ≤ m) := by
  constructor
  · simp [fetchWithRetry, fetchWithRetryGo, h]
  · intro rs m c
    simpa using fetchWithRetryGo_attempts_le rs c m 0 []

/-- Closed instance of the amended C9. -/
theorem fetchWithRetry_maxRetries_one_witness :
    fetchWithRetry (fun _ => ⟨408, .numeric 3⟩) 1 "Y"
      = ⟨.error "Y: Max retries exceeded", 1, [3000]⟩ := by
  have h := (fetchWithRetry_maxRetries_one (fun _ => ⟨408, .numeric 3⟩) "Y"
    rfl).1
  rw [h]; rfl

/-- A page fetch resolves to a page exactly when it was a success. -/
theorem resolvePage_eq_ok (pf : PageFetch) (page : Page)
    (h : resolvePage pf = .ok page) : pf = .success page := by
  cases pf <;> simp_all [resolvePage]

/-- Processing a consumed prefix advances the collector loop to the rest
of the pages with the accumulated videos and request count. -/
theorem grvConsume_append (cutoff : Int) :
    ∀ (pre : List PageFetch) (videos acc : List FeedItem)
      (rest : List PageFetch) (req : Nat),
      grvConsume cutoff pre videos = some acc →
      grvGo cutoff (pre ++ rest) videos req
        = grvGo cutoff rest acc (req + pre.length) := by
  intro pre
  induction pre with
  | nil =>
    intro videos acc rest req h
    simp [grvConsume] at h
    simp [h]
  | cons pf pre ih =>
    intro videos acc rest req h
    rw [grvConsume] at h
    cases hr : resolvePage pf with
    | error e => rw [hr] at h; simp at h
    | ok page =>
      rw [hr] at h
      dsimp only at h
      by_cases hl : lastOlder cutoff page.items
      · simp [hl] at h
      · rw [if_neg hl] at h
        by_cases hg : page.nextPageToken.isSome
          ∧ (videos ++ cutoffFilter cutoff page.items).length < 50
        · rw [if_pos hg] at h
          rw [List.cons_append, grvGo, hr]
          dsimp only
          rw [if_neg hl, if_pos hg, ih _ acc rest (req + 1) h]
          congr 1
          simp [Nat.add_comm, Nat.add_assoc, Nat.add_left_comm]
        · rw [if_neg hg] at h
          simp at h

/-- Every successful collector run returns exactly the cutoff filter of
the concatenated items of a prefix of successfully delivered pages,
appended to the starting accumulator. -/
theorem grvGo_ok_shape (cutoff : Int) :
    ∀ (pages : List PageFetch) (videos : List FeedItem) (req : Nat)
      (vs : List FeedItem) (r : Nat),
      grvGo cutoff pages videos req = (.ok vs, r) →
      ∃ ps : List Page, pages.take ps.length = ps.map PageFetch.success
        ∧ vs = videos ++ cutoffFilter cutoff (ps.map Page.items).flatten := by
  intro pages
  induction pages with
  | nil =>
    intro videos req vs r h
    simp [grvGo] at h
    exact ⟨[], by simp, by simp [cutoffFilter, h.1.symm]⟩
  | cons pf rest ih =>
    intro videos req vs r h
    rw [grvGo] at h
    cases hr : resolvePage pf with
    | error e => rw [hr] at h; simp at h
    | ok page =>
      rw [hr] at h
      dsimp only at h
      have hpf := resolvePage_eq_ok pf page hr
      by_cases hl : lastOlder cutoff page.items
      · rw [if_pos hl] at h
        simp at h
        exact ⟨[page], by simp [hpf], by simp [h.1.symm, cutoffFilter]⟩
      · rw [if_neg hl] at h
        by_cases hg : page.nextPageToken.isSome
          ∧ (videos ++ cutoffFilter cutoff page.items).length < 50
        · rw [if_pos hg] at h
          obtain ⟨ps, htake, hvs⟩ := ih _ _ vs r h
          refine ⟨page :: ps, ?_, ?_⟩
          · simp [List.take_succ_cons, hpf, htake]
          · simp [hvs, cutoffFilter, List.filter_append]
        · rw [if_neg hg] at h
          simp at h
          exact ⟨[page], by simp [hpf], by simp [h.1.symm, cutoffFilter]⟩

/-- When every delivered page holds at most 50 items and the accumulator
holds at most 49, a successful collector run returns at most 99 items. -/
theorem grvGo_length_le (cutoff : Int) :
    ∀ (pages : List PageFetch) (videos : List FeedItem) (req : Nat)
      (vs : List FeedItem) (r : Nat),
      (∀ page : Page, PageFetch.success page ∈ pages → page.items.length ≤ 50) →
      videos.length ≤ 49 →
      grvGo cutoff pages videos req = (.ok vs, r) → vs.length ≤ 99 := by
  intro pages
  induction pages with
  | nil =>
    intro videos req vs r _ hlen h
    simp [grvGo] at h
    rw [← h.1]
    omega
  | cons pf rest ih =>
    intro videos req vs r hpages hlen h
    rw [grvGo] at h
    cases hr : resolvePage pf with
    | error e => rw [hr] at h; simp at h
    | ok page =>
      rw [hr] at h
      dsimp only at h
      have hpf := resolvePage_eq_ok pf page hr
      have hitems : page.items.length ≤ 50 :=
        hpages page (by rw [← hpf]; exact List.mem_cons_self pf rest)
      have hfil : (cutoffFilter cutoff page.items).length ≤ 50 :=
        le_trans (List.length_filter_le _ _) hitems
      by_cases hl : lastOlder cutoff page.items
      · rw [if_pos hl] at h
        simp at h
        rw [← h.1]
        simp only [List.length_append]
        omega
      · rw [if_neg hl] at h
        by_cases hg : page.nextPageToken.isSome
          ∧ (videos ++ cutoffFilter cutoff page.items).length < 50
        · rw [if_pos hg] at h
          exact ih _ _ vs r
            (fun q hq => hpages q (List.mem_cons_of_mem pf hq))
            (by omega) h
        · rw [if_neg hg] at h
          simp at h
          rw [← h.1]
          simp only [List.length_append]
          omega

/-- C1: a successful `getRecentVideos` run returns only items with
`publishedAt >= cutoff`, and the result is exactly the cutoff filter of
the concatenated items of the prefix of pages the run processed, in feed
order; this holds for every sequence of pages the feed returns. -/
theorem getRecentVideos_cutoff_and_order (cutoff : Int)
    (pages : List PageFetch) (vs : List FeedItem)
    (h : getRecentVideos cutoff pages = .ok vs) :
    (∀ v ∈ vs, cutoff ≤ v.publishedAt)
      ∧ ∃ ps : List Page, pages.take ps.length = ps.map PageFetch.success
          ∧ vs = cutoffFilter cutoff (ps.map Page.items).flatten := by
  have hrun : grvGo cutoff pages [] 0
      = (.ok vs, (grvGo cutoff pages [] 0).2) := by
    have h1 : (grvGo cutoff pages [] 0).1 = .ok vs := h
    rw [← h1]
  obtain ⟨ps, htake, hvs⟩ := grvGo_ok_shape cutoff pages [] 0 vs _ hrun
  simp only [List.nil_append] at hvs
  refine ⟨?_, ps, htake, hvs⟩
  intro v hv
  rw [hvs] at hv
  have := List.of_mem_filter hv
  simpa using this

/-- Closed instance of C1: one page with items at instants 5 and -1 under
cutoff 0 yields exactly the instant-5 item. -/
theorem getRecentVideos_cutoff_and_order_witness :
    (∀ v ∈ [(⟨"a", "ta", "ca", 5⟩ : FeedItem)], (0 : Int) ≤ v.publishedAt)
      ∧ ∃ ps : List Page,
          ([PageFetch.success ⟨[⟨"a", "ta", "ca", 5⟩, ⟨"b", "tb", "cb", -1⟩],
              none⟩]).take ps.length = ps.map PageFetch.success
          ∧ [(⟨"a", "ta", "ca", 5⟩ : FeedItem)]
              = cutoffFilter 0 (ps.map Page.items).flatten :=
  getRecentVideos_cutoff_and_order 0
    [PageFetch.success ⟨[⟨"a", "ta", "ca", 5⟩, ⟨"b", "tb", "cb", -1⟩], none⟩]
    [⟨"a", "ta", "ca", 5⟩] (by rfl)

/-- C2: when the collector reaches a page whose last item is strictly
older than the cutoff, it stops immediately after processing that page —
exactly one more request, none for the remaining pages — even when the
page carries a next-page token (the token sits inside `page`, and `rest`
is arbitrary). -/
theorem getRecentVideos_early_termination (cutoff : Int)
    (pre rest : List PageFetch) (acc : List FeedItem) (page : Page)
    (hreach : grvConsume cutoff pre [] = some acc)
    (hold : lastOlder cutoff page.items = true) :
    getRecentVideosRun cutoff (pre ++ PageFetch.success page :: rest)
      = (.ok (acc ++ cutoffFilter cutoff page.items), pre.length + 1) := by
  unfold getRecentVideosRun
  rw [grvConsume_append cutoff pre [] acc (PageFetch.success page :: rest) 0
    hreach, grvGo]
  dsimp only [resolvePage]
  rw [if_pos hold]
  simp

/-- Closed instance of C2: page 2's last item is older than the cutoff, so
only 2 of the 3 pages are requested although page 2 carries a token and
page 3 holds a qualifying item. -/
theorem getRecentVideos_early_termination_witness :
    getRecentVideosRun 0
        ([PageFetch.success ⟨[⟨"x", "t", "c", 3⟩], some "tok"⟩]
          ++ PageFetch.success ⟨[⟨"y", "t", "c", -2⟩], some "tok2"⟩
            :: [PageFetch.success ⟨[⟨"z", "t", "c", 9⟩], none⟩])
      = (.ok [⟨"x", "t", "c", 3⟩], 2) := by
  have h := getRecentVideos_early_termination 0
    [PageFetch.success ⟨[⟨"x", "t", "c", 3⟩], some "tok"⟩]
    [PageFetch.success ⟨[⟨"z", "t", "c", 9⟩], none⟩]
    [⟨"x", "t", "c", 3⟩] ⟨[⟨"y", "t", "c", -2⟩], some "tok2"⟩
    (by rfl) (by rfl)
  rw [h]; rfl

/-- C6: if the collector reaches a page whose fetch fails — a propagated
`fetchWithRetry` throw, a non-ok HTTP status, or a malformed body — the
whole run returns that error: the items accumulated from earlier pages
are discarded, never returned. -/
theorem getRecentVideos_failure_atomicity (cutoff : Int)
    (pre rest : List PageFetch) (acc : List FeedItem) (pf : PageFetch)
    (e : String) (hreach : grvConsume cutoff pre [] = some acc)
    (herr : resolvePage pf = .error e) :
    getRecentVideosRun cutoff (pre ++ pf :: rest)
      = (.error e, pre.length + 1) := by
  unfold getRecentVideosRun
  rw [grvConsume_append cutoff pre [] acc (pf :: rest) 0 hreach, grvGo, herr]
  simp

/-- Closed instance of C6: page 1 contributes an item, page 2's fetch
throws after retry exhaustion, and the run returns the error with zero
items although page 3 exists. -/
theorem getRecentVideos_failure_atomicity_witness :
    getRecentVideosRun 0
        ([PageFetch.success ⟨[⟨"x", "t", "c", 3⟩], some "tok"⟩]
          ++ PageFetch.fetchError "YouTube/playlistItems[p]: Max retries exceeded"
            :: [PageFetch.success ⟨[⟨"z", "t", "c", 9⟩], none⟩])
      = (.error "YouTube/playlistItems[p]: Max retries exceeded", 2) := by
  have h := getRecentVideos_failure_atomicity 0
    [PageFetch.success ⟨[⟨"x", "t", "c", 3⟩], some "tok"⟩]
    [PageFetch.success ⟨[⟨"z", "t", "c", 9⟩], none⟩]
    [⟨"x", "t", "c", 3⟩]
    (PageFetch.fetchError "YouTube/playlistItems[p]: Max retries exceeded")
    "YouTube/playlistItems[p]: Max retries exceeded" (by rfl) (by rfl)
  rw [h]; rfl

/-- C10: the 50-item cap only guards whether another page is requested,
not the result size — a run can return more than 50 items (here 99) —
and for every run whose delivered pages each hold at most 50 items the
result holds at most 99 items (49 collected plus one full final page). -/
theorem getRecentVideos_cap_bounds :
    (∃ (cutoff : Int) (pages : List PageFetch) (vs : List FeedItem),
        getRecentVideos cutoff pages = .ok vs ∧ 50 < vs.length)
      ∧ ∀ (cutoff : Int) (pages : List PageFetch) (vs : List FeedItem),
          (∀ page : Page,
            PageFetch.success page ∈ pages → page.items.length ≤ 50) →
          getRecentVideos cutoff pages = .ok vs → vs.length ≤ 99 := by
  constructor
  · refine ⟨0,
      [PageFetch.success ⟨List.replicate 49 ⟨"v", "t", "c", 1⟩, some "tok"⟩,
       PageFetch.success ⟨List.replicate 50 ⟨"v", "t", "c", 1⟩, none⟩],
      List.replicate 49 (⟨"v", "t", "c", 1⟩ : FeedItem)
        ++ List.replicate 50 (⟨"v", "t", "c", 1⟩ : FeedItem), rfl, by simp⟩
  · intro cutoff pages vs hpages h
    have hrun : grvGo cutoff pages [] 0
        = (.ok vs, (grvGo cutoff pages [] 0).2) := by
      have h1 : (grvGo cutoff pages [] 0).1 = .ok vs := h
      rw [← h1]
    exact grvGo_length_le cutoff pages [] 0 vs _ hpages (by simp) hrun

/-- Closed instance of C10's bound at a one-page feed. -/
theorem getRecentVideos_cap_bounds_witness :
    ([(⟨"a", "ta", "ca", 5⟩ : FeedItem)]).length ≤ 99 :=
  getRecentVideos_cap_bounds.2 0
    [PageFetch.success ⟨[⟨"a", "ta", "ca", 5⟩, ⟨"b", "tb", "cb", -1⟩], none⟩]
    [⟨"a", "ta", "ca", 5⟩]
    (by
      intro page hp
      simp at hp
      rw [hp]
      simp)
    (by rfl)

/-- Walking a consumed (matchless, token-carrying) prefix advances the
lookup loop to the rest of the chain, one request per page. -/
theorem findConsume_append (videoId : String) :
    ∀ (pre rest : List (Except String LookupPage)) (req : Nat),
      findConsume videoId pre = true →
      findGo videoId (pre ++ rest) req
        = findGo videoId rest (req + pre.length) := by
  intro pre
  induction pre with
  | nil => intro rest req _; simp
  | cons p pre ih =>
    intro rest req h
    cases p with
    | error e => rw [findConsume] at h; simp at h
    | ok page =>
      rw [findConsume] at h
      cases hf : page.items.find? (itemMatches videoId) with
      | some it => rw [hf] at h; simp at h
      | none =>
        rw [hf] at h
        simp only [Bool.and_eq_true] at h
        rw [List.cons_append, findGo, hf, if_pos h.1,
          ih rest (req + 1) h.2]
        simp [Nat.add_comm, Nat.add_assoc, Nat.add_left_comm]

/-- Along a well-formed chain of matchless pages the lookup visits every
page and returns the distinguished `none`. -/
theorem findGo_exhaust (videoId : String) :
    ∀ (ps : List LookupPage) (req : Nat),
      (∀ p ∈ ps, p.items.find? (itemMatches videoId) = none) →
      chainOk ps = true →
      findGo videoId (ps.map Except.ok) req = (.ok none, req + ps.length) := by
  intro ps
  induction ps with
  | nil => intro req _ _; simp [findGo]
  | cons p ps ih =>
    intro req hno hch
    rw [List.map_cons, findGo, hno p (List.mem_cons_self p ps)]
    cases ps with
    | nil =>
      have hnone : p.nextPageToken.isSome = false := by
        simp [chainOk, Option.isNone_iff_eq_none] at hch
        simp [hch]
      rw [if_neg (by simp [hnone])]
      simp
    | cons q rest =>
      simp only [chainOk, Bool.and_eq_true] at hch
      rw [if_pos hch.1,
        ih (req + 1) (fun x hx => hno x (List.mem_cons_of_mem p hx)) hch.2]
      simp [Nat.add_comm, Nat.add_assoc, Nat.add_left_comm]

/-- C7: the lookup returns the id of the first matching item on the first
page containing one, as soon as that page is processed (no further
request); and along a well-formed cursor chain with no match anywhere it
visits every page and returns the distinguished absent result `none`
(JS `null`, a normal return, not a thrown error). -/
theorem findPlaylistItemId_match_or_not_found :
    (∀ (videoId : String) (pre rest : List (Except String LookupPage))
        (page : LookupPage) (it : PlaylistItem),
        findConsume videoId pre = true →
        page.items.find? (itemMatches videoId) = some it →
        findPlaylistItemIdRun videoId (pre ++ Except.ok page :: rest)
          = (.ok (some it.id), pre.length + 1))
      ∧ ∀ (videoId : String) (ps : List LookupPage),
          (∀ p ∈ ps, p.items.find? (itemMatches videoId) = none) →
          chainOk ps = true →
          findPlaylistItemIdRun videoId (ps.map Except.ok)
            = (.ok none, ps.length) := by
  constructor
  · intro videoId pre rest page it hpre hfind
    unfold findPlaylistItemIdRun
    rw [findConsume_append videoId pre (Except.ok page :: rest) 0 hpre,
      findGo, hfind]
    simp
  · intro videoId ps hno hch
    unfold findPlaylistItemIdRun
    rw [findGo_exhaust videoId ps 0 hno hch]
    simp

/-- Closed instance of C7: a match on page 2 returns its playlist-item id
after exactly 2 requests, and a matchless two-page chain returns `none`
after visiting both pages. -/
theorem findPlaylistItemId_match_or_not_found_witness :
    findPlaylistItemIdRun "vid"
        ([Except.ok ⟨[⟨"pl1", some "other"⟩], some "t1"⟩]
          ++ Except.ok ⟨[⟨"pl2", some "vid"⟩], some "t2"⟩
            :: [Except.ok ⟨[⟨"pl3", some "vid"⟩], none⟩])
        = (.ok (some "pl2"), 2)
      ∧ findPlaylistItemIdRun "vid"
          (([⟨[⟨"pl1", some "other"⟩], some "t1"⟩,
             ⟨[⟨"pl4", none⟩], none⟩] : List LookupPage).map Except.ok)
          = (.ok none, 2) := by
  constructor
  · have h := findPlaylistItemId_match_or_not_found.1 "vid"
      [Except.ok ⟨[⟨"pl1", some "other"⟩], some "t1"⟩]
      [Except.ok ⟨[⟨"pl3", some "vid"⟩], none⟩]
      ⟨[⟨"pl2", some "vid"⟩], some "t2"⟩ ⟨"pl2", some "vid"⟩
      (by rfl) (by rfl)
    rw [h]; rfl
  · have h := findPlaylistItemId_match_or_not_found.2 "vid"
      [⟨[⟨"pl1", some "other"⟩], some "t1"⟩, ⟨[⟨"pl4", none⟩], none⟩]
      (by
        intro p hp
        simp at hp
        rcases hp with h1 | h2
        · rw [h1]; rfl
        · rw [h2]; rfl)
      (by rfl)
    rw [h]; rfl

end Yts
